import Mathlib

/-!
# Verification of the grid-puzzle simulation core (main.py / levels.py)

A shallow embedding of the game's simulation core:

* `GridPos`, `RectI` — the integer grid and pygame's integer `Rect`
  (pygame truncates float coordinates toward zero when building a `Rect`;
  `Rect.collidepoint` is inclusive on the left/top edge and exclusive on the
  right/bottom edge; `Rect.colliderect` is strict, touching edges do not
  collide; `Rect.center` is `(x + w / 2, y + h / 2)` with integer division).
* Python floats are modelled as exact rationals (`ℚ`).  `round` is Python's
  half-to-even rounding (`pyRound`), `int(...)` is truncation toward zero
  (`pyTrunc`).  `pygame.Vector2.normalize` divides by a float square root;
  it is modelled by a rational square-root approximation (`ratSqrt`) that is
  exact whenever the squared length is a perfect rational square — in
  particular on every concrete input used below.
* `Level.init` — the textual level parser of `Level.__init__`, for
  newline-separated input.  Python `set`s are modelled as duplicate-free
  lists in first-insertion (row-major) order; the rendering-only
  `LevelText` annotations (the part of a row from the first underscore on)
  are stripped exactly as the source strips them before column indexing,
  and are not otherwise modelled.  Sounds and images are ignored: they do
  not influence the simulation state.
* `Box.try_push`, `Player.update` (the per-tick resolver), `Player.next_ability`,
  `Level.is_solved` — direct translations of the corresponding methods.
  In-place mutation of the box list / mask set during iteration over a
  `copy()` snapshot is modelled by structural recursion that threads the
  live collection (only the element currently being processed is ever
  mutated or removed, so the snapshot tail always coincides with the live
  tail).  `ShatterAnimation` is wall-clock driven and rendering-only; only
  the fact that an animation was started at a given cell is recorded
  (`PlayerS.shatters : List GridPos`).
* `winTrace` / `solvedEdge` — the `win_state` latch of `Game.run`
  (`if not win_state and self.level.is_solved(...)`) over an abstract
  per-tick trace of box lists, for one level instance (no restart events).
-/

/-- Source `TILE_SIZE: int = 80`. -/
def TILE_SIZE : ℤ := 80

/-- Source `PLAYER_SPEED: float = 220.0` (pixels / second). -/
def PLAYER_SPEED : ℚ := 220

/-- The player's bounding-box side: `Vector2(TILE_SIZE * 0.3)` evaluates to the
float `24.0`, which pygame truncates to the integer `24` whenever a `Rect` is
built from it. -/
def PLAYER_SIZE : ℤ := 24

/-- Python `int(...)` on a float: truncation toward zero. -/
def pyTrunc (q : ℚ) : ℤ := if q < 0 then Int.ceil q else Int.floor q

/-- Python `round(...)` on a float: rounding to the nearest integer, ties to
the even integer (banker's rounding). -/
def pyRound (q : ℚ) : ℤ :=
  if q - (Int.floor q : ℚ) < 1/2 then Int.floor q
  else if 1/2 < q - (Int.floor q : ℚ) then Int.floor q + 1
  else if Int.floor q % 2 = 0 then Int.floor q else Int.floor q + 1

/-- Rational stand-in for the float square root used by
`pygame.Vector2.normalize`; exact on perfect rational squares. -/
def ratSqrt (q : ℚ) : ℚ := (Int.sqrt q.num : ℚ) / (Nat.sqrt q.den : ℚ)

/-- Source `GridPos` — frozen dataclass with integer coordinates. -/
structure GridPos where
  x : ℤ
  y : ℤ
deriving DecidableEq

/-- Source `GridPos.to_world`: the center of the tile's pixel rectangle,
`Rect(x * TILE_SIZE, y * TILE_SIZE, TILE_SIZE, TILE_SIZE).center`. -/
def GridPos.to_world (g : GridPos) : ℚ × ℚ :=
  (((TILE_SIZE * g.x + TILE_SIZE / 2 : ℤ) : ℚ), ((TILE_SIZE * g.y + TILE_SIZE / 2 : ℤ) : ℚ))

/-- pygame's integer rectangle. -/
structure RectI where
  x : ℤ
  y : ℤ
  w : ℤ
  h : ℤ
deriving DecidableEq

/-- Source `Rect.center = (x + w // 2, y + h // 2)`. -/
def RectI.center (r : RectI) : ℤ × ℤ := (r.x + r.w / 2, r.y + r.h / 2)

/-- Source `Rect.collidepoint`: inclusive on left/top, exclusive on right/bottom. -/
def RectI.collidepoint (r : RectI) (pt : ℤ × ℤ) : Bool :=
  decide (r.x ≤ pt.1) && decide (pt.1 < r.x + r.w) &&
  decide (r.y ≤ pt.2) && decide (pt.2 < r.y + r.h)

/-- Source `Rect.colliderect`: strict overlap, touching edges do not collide. -/
def RectI.colliderect (a b : RectI) : Bool :=
  decide (a.x < b.x + b.w) && decide (b.x < a.x + a.w) &&
  decide (a.y < b.y + b.h) && decide (b.y < a.y + a.h)

/-- The pixel rectangle of a grid cell
(`Rect(g.x * TILE_SIZE, g.y * TILE_SIZE, TILE_SIZE, TILE_SIZE)`). -/
def tileRect (g : GridPos) : RectI :=
  ⟨TILE_SIZE * g.x, TILE_SIZE * g.y, TILE_SIZE, TILE_SIZE⟩

/-- Source `pygame.Rect(pos, size)` for a float position: coordinates truncated
toward zero. -/
def mkPlayerRect (pos : ℚ × ℚ) : RectI :=
  ⟨pyTrunc pos.1, pyTrunc pos.2, PLAYER_SIZE, PLAYER_SIZE⟩

/-- Source `class Power(Enum)` with ordinals `NONE = 0, PUSH = 1, BREAK = 2,
IGNORE = 3`. -/
inductive Power where
  | NONE
  | PUSH
  | BREAK
  | IGNORE
deriving DecidableEq, Fintype

/-- The `.value` ordinal of a `Power`. -/
def Power.value : Power → ℕ
  | .NONE => 0
  | .PUSH => 1
  | .BREAK => 2
  | .IGNORE => 3

/-- Source `Power(i % 4)`: the enum member with ordinal `i % 4`. -/
def Power.ofMod (i : ℕ) : Power :=
  match i % 4 with
  | 0 => .NONE
  | 1 => .PUSH
  | 2 => .BREAK
  | _ => .IGNORE

/-- A `Mask` pickup: a grid cell and the `Power` it grants. -/
structure Mask where
  pos : GridPos
  power : Power
deriving DecidableEq

/-- Source `Mask.rect = Rect(pos.x*TILE_SIZE + 15, pos.y*TILE_SIZE + 15,
TILE_SIZE - 30, TILE_SIZE - 30)`. -/
def Mask.rect (m : Mask) : RectI :=
  ⟨TILE_SIZE * m.pos.x + 15, TILE_SIZE * m.pos.y + 15, TILE_SIZE - 30, TILE_SIZE - 30⟩

/-- A `Box`: authoritative logical cell plus the visual slide state. -/
structure Box where
  grid_pos : GridPos
  pixel_pos : ℚ × ℚ
  target_pixel_pos : ℚ × ℚ
  sliding : Bool
deriving DecidableEq

/-- Source `Box.__init__(grid_pos)`: pixel position at the tile origin, not sliding. -/
def Box.init (g : GridPos) : Box :=
  ⟨g, (((TILE_SIZE * g.x : ℤ) : ℚ), ((TILE_SIZE * g.y : ℤ) : ℚ)),
      (((TILE_SIZE * g.x : ℤ) : ℚ), ((TILE_SIZE * g.y : ℤ) : ℚ)), false⟩

/-- The parsed level: the entity sets built by `Level.__init__`.  Python
`set`s are modelled as duplicate-free lists in first-insertion order. -/
structure Level where
  walls : List GridPos
  goals : List GridPos
  floors : List GridPos
  boxes : List GridPos
  masks : List Mask
  player : Option GridPos
deriving DecidableEq

/-- Set-style insertion: ignore an element that is already present. -/
def insertPos (l : List GridPos) (p : GridPos) : List GridPos :=
  if p ∈ l then l else l ++ [p]

/-- Set-style insertion for masks. -/
def insertMask (l : List Mask) (m : Mask) : List Mask :=
  if m ∈ l then l else l ++ [m]

/-- One cell of the `match ch` symbol table in `Level.__init__`. -/
def parseCell (lv : Level) (pos : GridPos) (ch : Char) : Level :=
  if ch = '#' then { lv with walls := insertPos lv.walls pos }
  else if ch = '.' then { lv with goals := insertPos lv.goals pos }
  else if ch = '$' then
    { lv with boxes := insertPos lv.boxes pos, floors := insertPos lv.floors pos }
  else if ch = '@' then
    { lv with player := some pos, floors := insertPos lv.floors pos }
  else if ch = '*' then
    { lv with boxes := insertPos lv.boxes pos, goals := insertPos lv.goals pos }
  else if ch = '+' then
    { lv with player := some pos, goals := insertPos lv.goals pos }
  else if ch = 'P' then
    { lv with floors := insertPos lv.floors pos, masks := insertMask lv.masks ⟨pos, Power.PUSH⟩ }
  else if ch = 'B' then
    { lv with floors := insertPos lv.floors pos, masks := insertMask lv.masks ⟨pos, Power.BREAK⟩ }
  else if ch = 'I' then
    { lv with floors := insertPos lv.floors pos, masks := insertMask lv.masks ⟨pos, Power.IGNORE⟩ }
  else if ch = ' ' then { lv with floors := insertPos lv.floors pos }
  else lv

/-- Source `for x, ch in enumerate(row)` over the grid part of one row. -/
def parseCells (y : ℤ) : Level → ℤ → List Char → Level
  | lv, _, [] => lv
  | lv, x, c :: cs => parseCells y (parseCell lv ⟨x, y⟩ c) (x + 1) cs

/-- Source `row.split("_", 2)[0]`: the part of a row before the first underscore —
the only part that is column-indexed as grid cells (the rest is a
rendering-only annotation). -/
def gridPart (row : List Char) : List Char := row.takeWhile (fun c => c ≠ '_')

/-- Source `for y, row in enumerate(rows)`. -/
def parseRows : Level → ℤ → List (List Char) → Level
  | lv, _, [] => lv
  | lv, y, r :: rs => parseRows (parseCells y lv 0 (gridPart r)) (y + 1) rs

/-- Source `str.splitlines` for newline-separated text. -/
def splitLines : List Char → List (List Char)
  | [] => [[]]
  | c :: cs =>
    if c = '\n' then [] :: splitLines cs
    else
      match splitLines cs with
      | [] => [[c]]
      | l :: ls => (c :: l) :: ls

/-- Source `level.strip("\n")`: drop leading and trailing newline characters. -/
def stripNL (l : List Char) : List Char :=
  ((l.dropWhile (fun c => c = '\n')).reverse.dropWhile (fun c => c = '\n')).reverse

/-- The row list `[row.rstrip("\n") for row in level.strip("\n").splitlines()]`
(for newline-separated input; `rstrip("\n")` is a no-op after `splitlines`). -/
def levelRows (s : String) : List (List Char) :=
  let t := stripNL s.toList
  if t = [] then [] else splitLines t

/-- The empty entity sets with which `Level.__init__` starts. -/
def emptyLevel : Level := ⟨[], [], [], [], [], none⟩

/-- Source `Level.__init__(level)`: parse a textual level.  The source never raises
on a missing player; it simply leaves `self.player = None`. -/
def Level.init (s : String) : Level := parseRows emptyLevel 0 (levelRows s)

/-- Source `Level.is_wall(pos)`. -/
def Level.is_wall (lv : Level) (pos : GridPos) : Bool := decide (pos ∈ lv.walls)

/-- Source `Level.is_solved(boxes)`: every goal cell is some box's logical cell. -/
def Level.is_solved (lv : Level) (boxes : List Box) : Bool :=
  lv.goals.all (fun g => boxes.any (fun b => decide (b.grid_pos = g)))

/-- Source `Box.try_push(direction, level, boxes)`: the grid cell one step from the
box's logical cell in the (component-truncated) direction. -/
def Box.pushTarget (self : Box) (direction : ℚ × ℚ) : GridPos :=
  ⟨self.grid_pos.x + pyTrunc direction.1, self.grid_pos.y + pyTrunc direction.2⟩

/-- Source `Box.try_push(direction, level, boxes)`: reject if the target cell is a
wall, the box is mid-slide, or any box of `boxes` (the live collection, which
at every call site contains `self`) occupies the target; otherwise move the
logical cell immediately and start the slide animation.  Returns the updated
box together with the success flag (the source mutates `self` in place). -/
def Box.try_push (self : Box) (direction : ℚ × ℚ) (level : Level)
    (boxes : List Box) : Box × Bool :=
  let target := self.pushTarget direction
  if level.is_wall target then (self, false)
  else if self.sliding then (self, false)
  else if boxes.any (fun b => decide (b.grid_pos = target)) then (self, false)
  else
    ({ self with grid_pos := target,
                 target_pixel_pos := (((TILE_SIZE * target.x : ℤ) : ℚ),
                                      ((TILE_SIZE * target.y : ℤ) : ℚ)),
                 sliding := true }, true)

/-- The mutable per-player state of `Player.__init__` (images and sounds are
rendering-only; a started shatter animation is recorded by its cell). -/
structure PlayerS where
  position : ℚ × ℚ
  velocity : ℚ × ℚ
  abilities : Finset Power
  current_ability : Power
  facing : Option (ℚ × ℚ)
  shatters : List GridPos
deriving DecidableEq

/-- Source `Player.__init__(start_pos)`. -/
def PlayerS.init (start : ℚ × ℚ) : PlayerS :=
  ⟨start, (0, 0), {Power.NONE}, Power.NONE, none, []⟩

/-- Source `Player.next_ability()`: scan `Power((value+1) % 4) … Power((value+4) % 4)`
and select the first one contained in `abilities`; if none is (empty ability
set), `current_ability` is left unchanged. -/
def Player.next_ability (cur : Power) (abilities : Finset Power) : Power :=
  match ([1, 2, 3, 4].map (fun i => Power.ofMod (cur.value + i))).find?
      (fun q => decide (q ∈ abilities)) with
  | some q => q
  | none => cur

/-- The whole mutable game state that `Player.update` touches:
`Game.level` (whose `masks` set it mutates), `Game.boxes`, `Game.player`. -/
structure World where
  level : Level
  boxes : List Box
  player : PlayerS
deriving DecidableEq

/-- Source `Game.restart_level()` for a given level string: fails (with an
`AttributeError` on `None.to_world()`) exactly when the parsed level has no
player cell; modelled as `none`. -/
def Game.restart_level (s : String) : Option World :=
  match (Level.init s).player with
  | none => none
  | some p =>
    some ⟨Level.init s, (Level.init s).boxes.map Box.init, PlayerS.init p.to_world⟩

/-- Source `input_dir.length_squared()`. -/
def lengthSq (v : ℚ × ℚ) : ℚ := v.1 * v.1 + v.2 * v.2

/-- Source `input_dir.normalize()` (see the header note on `ratSqrt`). -/
def normalizeV (v : ℚ × ℚ) : ℚ × ℚ :=
  (v.1 / ratSqrt (lengthSq v), v.2 / ratSqrt (lengthSq v))

/-- The velocity assigned at the top of `Player.update`:
`input_dir.normalize() * PLAYER_SPEED` for nonzero input, else the zero
vector. -/
def tickVelocity (input_dir : ℚ × ℚ) : ℚ × ℚ :=
  if 0 < lengthSq input_dir then
    ((normalizeV input_dir).1 * PLAYER_SPEED, (normalizeV input_dir).2 * PLAYER_SPEED)
  else (0, 0)

/-- The facing/velocity update at the top of `Player.update`. -/
def velPlayer (p : PlayerS) (input_dir : ℚ × ℚ) : PlayerS :=
  if 0 < lengthSq input_dir then
    { p with facing := some input_dir, velocity := tickVelocity input_dir }
  else { p with velocity := (0, 0) }

/-- Source `new_pos = self.position + self.velocity * dt`. -/
def newPosition (w : World) (dt : ℚ) (input_dir : ℚ × ℚ) : ℚ × ℚ :=
  (w.player.position.1 + (tickVelocity input_dir).1 * dt,
   w.player.position.2 + (tickVelocity input_dir).2 * dt)

/-- Source `future_rect = pygame.Rect(new_pos, self.size)`. -/
def futureRect (w : World) (dt : ℚ) (input_dir : ℚ × ℚ) : RectI :=
  mkPlayerRect (newPosition w dt input_dir)

/-- The player's rectangle at its current position (`Player.rect`). -/
def currentRect (w : World) : RectI := mkPlayerRect w.player.position

/-- The wall-collision early return of `Player.update`. -/
def hitsWall (lv : Level) (fr : RectI) : Bool :=
  lv.walls.any (fun wl => fr.colliderect (tileRect wl))

/-- Source `direction = Vector2(round(input_dir.x), round(input_dir.y))` — the push
direction handed to `Box.try_push`. -/
def pushDirection (input_dir : ℚ × ℚ) : ℤ × ℤ :=
  (pyRound input_dir.1, pyRound input_dir.2)

/-- Result of the box-interaction loop: the live box list, the cells where
shatter animations were started, and whether the tick aborted
(`return`ed before committing the move). -/
structure BoxOut where
  boxes : List Box
  shatter : List GridPos
  aborted : Bool
deriving DecidableEq

/-- The `for box in boxes.copy()` loop of `Player.update`: `done` is the
already-processed prefix of the live list, `todo` the snapshot tail (equal to
the live tail, since only the element being processed is ever mutated or
removed). -/
def boxLoop (level : Level) (c : ℤ × ℤ) (direction : ℚ × ℚ) (ability : Power) :
    List Box → List Box → BoxOut
  | done, [] => ⟨done, [], false⟩
  | done, b :: rest =>
    if (tileRect b.grid_pos).collidepoint c then
      if ability = Power.BREAK then ⟨done ++ rest, [b.grid_pos], true⟩
      else if ability ≠ Power.PUSH then ⟨done ++ b :: rest, [], true⟩
      else
        let r := b.try_push direction level (done ++ b :: rest)
        if r.2 then boxLoop level c direction ability (done ++ [r.1]) rest
        else ⟨done ++ b :: rest, [], true⟩
    else boxLoop level c direction ability (done ++ [b]) rest

/-- The box-interaction step of `Player.update`: skipped entirely when the
current ability is `IGNORE`. -/
def boxPhase (w : World) (dt : ℚ) (input_dir : ℚ × ℚ) : BoxOut :=
  if w.player.current_ability = Power.IGNORE then ⟨w.boxes, [], false⟩
  else
    boxLoop w.level (futureRect w dt input_dir).center
      (((pushDirection input_dir).1 : ℚ), ((pushDirection input_dir).2 : ℚ))
      w.player.current_ability [] w.boxes

/-- Result of the mask-pickup loop. -/
structure MaskOut where
  masks : List Mask
  abilities : Finset Power
  current : Power
deriving DecidableEq

/-- The `for mask in level.masks.copy()` loop of `Player.update`: every mask
whose rect collides the future rect is collected (added to `abilities`,
equipped, removed from the level's mask set); no early return. -/
def maskLoop (fr : RectI) : List Mask → Finset Power → Power → MaskOut
  | [], ab, cur => ⟨[], ab, cur⟩
  | m :: rest, ab, cur =>
    if fr.colliderect m.rect then maskLoop fr rest (insert m.power ab) m.power
    else
      let r := maskLoop fr rest ab cur
      ⟨m :: r.masks, r.abilities, r.current⟩

/-- Source `Player.update(dt, level, boxes, input_dir)` — the per-tick resolver:
velocity/facing update, wall early-return, ability-gated box interaction
(with its early returns), mask pickup, and the final position commit. -/
def Player.update (w : World) (dt : ℚ) (input_dir : ℚ × ℚ) : World :=
  let p1 := velPlayer w.player input_dir
  let fr := futureRect w dt input_dir
  if hitsWall w.level fr then { w with player := p1 }
  else
    let bp := boxPhase w dt input_dir
    if bp.aborted then
      { w with boxes := bp.boxes,
               player := { p1 with shatters := p1.shatters ++ bp.shatter } }
    else
      let mp := maskLoop fr w.level.masks p1.abilities p1.current_ability
      { w with level := { w.level with masks := mp.masks },
               boxes := bp.boxes,
               player := { p1 with shatters := p1.shatters ++ bp.shatter,
                                   abilities := mp.abilities,
                                   current_ability := mp.current,
                                   position := newPosition w dt input_dir } }

/-- One resolver tick with `dt = 0` and the zero input vector. -/
def tickZero (w : World) : World := Player.update w 0 0

/-- The `win_state` latch of `Game.run` over a per-tick solved trace:
`win_state` before tick `n`. -/
def winTrace (s : ℕ → Bool) : ℕ → Bool
  | 0 => false
  | n + 1 => winTrace s n || s n

/-- The solved edge: tick `n` satisfies `not win_state and is_solved`,
i.e. it arms the win timer. -/
def solvedEdge (s : ℕ → Bool) (n : ℕ) : Bool := !(winTrace s n) && s n

/-- Is a direction one of the four axis-aligned unit vectors? -/
def isCardinalUnit (d : ℤ × ℤ) : Bool :=
  decide (d = (1, 0)) || decide (d = (-1, 0)) || decide (d = (0, 1)) || decide (d = (0, -1))

lemma winTrace_eq_true_iff (s : ℕ → Bool) (n : ℕ) :
    winTrace s n = true ↔ ∃ m, m < n ∧ s m = true := by
  induction n with
  | zero => simp [winTrace]
  | succ n ih =>
    rw [winTrace, Bool.or_eq_true, ih]
    constructor
    · rintro (⟨m, hm, hsm⟩ | hs)
      · exact ⟨m, Nat.lt_succ_of_lt hm, hsm⟩
      · exact ⟨n, Nat.lt_succ_self n, hs⟩
    · rintro ⟨m, hm, hsm⟩
      rcases Nat.lt_succ_iff_lt_or_eq.mp hm with h | h
      · exact Or.inl ⟨m, h, hsm⟩
      · subst h
        exact Or.inr hsm

/-- C9: `Level.is_solved(boxes)` returns true iff every goal cell of the level
equals the logical position of some box in the collection; boxes standing on
non-goal cells are irrelevant to the predicate. -/
theorem is_solved_iff_goals_covered (lv : Level) (boxes : List Box) :
    lv.is_solved boxes = true ↔ ∀ g ∈ lv.goals, ∃ b ∈ boxes, b.grid_pos = g := by
  simp [Level.is_solved, List.all_eq_true, List.any_eq_true]

/-- A one-goal demo level (goal at the origin) used in concrete witnesses. -/
def demoLevel : Level := { emptyLevel with goals := [⟨0, 0⟩] }

/-- Witness for C9 at a concrete level and box list. -/
theorem is_solved_iff_goals_covered_witness :
    Level.is_solved demoLevel [Box.init ⟨0, 0⟩] = true :=
  (is_solved_iff_goals_covered demoLevel [Box.init ⟨0, 0⟩]).mpr (by decide)

/-- C8: over one run of the simulation loop for one level instance, the
`win_state` latch of `Game.run` makes the solved signal an edge — tick `n`
arms the win timer iff the level is solved at tick `n` and was solved at no
earlier tick; hence the signal fires exactly once, at the first solved tick,
and never again while the level stays solved. -/
theorem solved_edge_fires_on_first_solve (lv : Level) (bt : ℕ → List Box) (n : ℕ) :
    solvedEdge (fun k => lv.is_solved (bt k)) n = true ↔
      (lv.is_solved (bt n) = true ∧ ∀ m, m < n → lv.is_solved (bt m) = false) := by
  have h := winTrace_eq_true_iff (fun k => lv.is_solved (bt k)) n
  rw [solvedEdge, Bool.and_eq_true, Bool.not_eq_true']
  constructor
  · rintro ⟨hw, hs⟩
    refine ⟨hs, fun m hm => ?_⟩
    by_contra hmem
    have hx : winTrace (fun k => lv.is_solved (bt k)) n = true :=
      h.mpr ⟨m, hm, by simpa using hmem⟩
    rw [hx] at hw
    cases hw
  · rintro ⟨h1, h2⟩
    refine ⟨?_, h1⟩
    rcases hwt : winTrace (fun k => lv.is_solved (bt k)) n with _ | _
    · rfl
    · rcases h.mp hwt with ⟨m, hm, hsm⟩
      rw [h2 m hm] at hsm
      cases hsm
  
/-- The box trace of the C8 witness: the goal cell becomes covered at tick 2. -/
def demoBoxTrace (k : ℕ) : List Box := if k < 2 then [] else [Box.init ⟨0, 0⟩]

/-- Witness for C8: on the demo trace the edge fires at tick 2, the first
solved tick. -/
theorem solved_edge_fires_on_first_solve_witness :
    solvedEdge (fun k => Level.is_solved demoLevel (demoBoxTrace k)) 2 = true :=
  (solved_edge_fires_on_first_solve demoLevel demoBoxTrace 2).mpr (by decide)

/-- C6: whenever `NONE` is held, `Player.next_ability` advances to the first
`Power` after the current one in ordinal order modulo 4 that is a member of
`abilities` (so it terminates within one wrap); with only `NONE` held it
stays `NONE`, and with `{NONE, PUSH, BREAK}` it cycles
NONE→PUSH→BREAK→NONE, skipping IGNORE. -/
theorem cycle_next_ability :
    (∀ (cur : Power) (ab : Finset Power), Power.NONE ∈ ab →
      ∃ k ∈ [1, 2, 3, 4], Power.ofMod (cur.value + k) ∈ ab ∧
        Player.next_ability cur ab = Power.ofMod (cur.value + k) ∧
        ∀ j ∈ [1, 2, 3, 4], j < k → Power.ofMod (cur.value + j) ∉ ab) ∧
    Player.next_ability Power.NONE {Power.NONE} = Power.NONE ∧
    Player.next_ability Power.NONE {Power.NONE, Power.PUSH, Power.BREAK} = Power.PUSH ∧
    Player.next_ability Power.PUSH {Power.NONE, Power.PUSH, Power.BREAK} = Power.BREAK ∧
    Player.next_ability Power.BREAK {Power.NONE, Power.PUSH, Power.BREAK} = Power.NONE := by
  decide

/-- Witness for C6, instantiating the quantified part at `abilities = {NONE}`. -/
theorem cycle_next_ability_witness :
    Power.NONE ∈ ({Power.NONE} : Finset Power) ∧
    Player.next_ability Power.NONE {Power.NONE} = Power.NONE := by
  refine ⟨by decide, ?_⟩
  rcases cycle_next_ability.1 Power.NONE {Power.NONE} (by decide) with
    ⟨k, hk, hmem, heq, hmin⟩
  rw [heq]
  simpa using hmem

lemma pyRound_dist_le_half (q : ℚ) : |q - (pyRound q : ℚ)| ≤ 1/2 := by
  have h0 : ((Int.floor q : ℤ) : ℚ) ≤ q := Int.floor_le q
  have h1 : q < (Int.floor q : ℤ) + 1 := Int.lt_floor_add_one q
  unfold pyRound
  split_ifs with hlt hgt hev
  · rw [abs_of_nonneg (by linarith)]
    linarith
  · rw [abs_of_nonpos (by push_cast; linarith)]
    push_cast
    linarith
  · have he : q - (Int.floor q : ℚ) = 1/2 := le_antisymm (not_lt.mp hgt) (not_lt.mp hlt)
    rw [abs_of_nonneg (by linarith)]
    linarith
  · have he : q - (Int.floor q : ℚ) = 1/2 := le_antisymm (not_lt.mp hgt) (not_lt.mp hlt)
    rw [abs_of_nonpos (by push_cast; linarith)]
    push_cast
    linarith

lemma pyRound_small_of_abs_le_one (q : ℚ) (h : |q| ≤ 1) :
    pyRound q = -1 ∨ pyRound q = 0 ∨ pyRound q = 1 := by
  have hd := pyRound_dist_le_half q
  have habs : |(pyRound q : ℚ)| ≤ 3/2 := by
    have h3 : |(pyRound q : ℚ)| - |q| ≤ |(pyRound q : ℚ) - q| := abs_sub_abs_le_abs_sub _ _
    rw [abs_sub_comm] at h3
    linarith
  have hq : |(pyRound q : ℚ)| < 2 := by linarith
  have hz : |pyRound q| < 2 := by
    have h4 : ((|pyRound q| : ℤ) : ℚ) < 2 := by
      rw [Int.cast_abs]
      exact hq
    exact_mod_cast h4
  rcases abs_lt.mp hz with ⟨ha, hb⟩
  omega

/-- C2 (amended): the push direction handed to `Box.try_push` is the
componentwise Python rounding of the raw input direction; whenever both input
components lie in `[-1, 1]` each rounded component lies in `{-1, 0, 1}` and is
within 1/2 of the input component.  It is not, in general, a cardinal unit
vector: normalized diagonal input rounds to the diagonal `(1, 1)` (see the
counterexample theorem). -/
theorem push_direction_componentwise_round (v : ℚ × ℚ)
    (h1 : |v.1| ≤ 1) (h2 : |v.2| ≤ 1) :
    pushDirection v = (pyRound v.1, pyRound v.2) ∧
    ((pushDirection v).1 = -1 ∨ (pushDirection v).1 = 0 ∨ (pushDirection v).1 = 1) ∧
    ((pushDirection v).2 = -1 ∨ (pushDirection v).2 = 0 ∨ (pushDirection v).2 = 1) ∧
    |v.1 - ((pushDirection v).1 : ℚ)| ≤ 1/2 ∧ |v.2 - ((pushDirection v).2 : ℚ)| ≤ 1/2 := by
  refine ⟨rfl, ?_, ?_, ?_, ?_⟩
  · exact pyRound_small_of_abs_le_one v.1 h1
  · exact pyRound_small_of_abs_le_one v.2 h2
  · exact pyRound_dist_le_half v.1
  · exact pyRound_dist_le_half v.2

/-- Witness for C2 at the normalized diagonal input `(0.707, 0.707)`. -/
theorem push_direction_componentwise_round_witness :
    |(707/1000 : ℚ)| ≤ 1 ∧
    pushDirection (707/1000, 707/1000) = (pyRound (707/1000), pyRound (707/1000)) ∧
    ((pushDirection ((707/1000 : ℚ), (707/1000 : ℚ))).1 = -1 ∨
     (pushDirection ((707/1000 : ℚ), (707/1000 : ℚ))).1 = 0 ∨
     (pushDirection ((707/1000 : ℚ), (707/1000 : ℚ))).1 = 1) := by
  have h := push_direction_componentwise_round (707/1000, 707/1000)
    (by with_unfolding_all decide) (by with_unfolding_all decide)
  exact ⟨by with_unfolding_all decide, h.1, h.2.1⟩

/-- Counterexample for C2 as stated: for the diagonal normalized input
`(0.707, 0.707)` the resolver's push direction is the diagonal `(1, 1)`,
which is not an axis-aligned unit vector. -/
theorem diagonal_push_direction_not_cardinal :
    pushDirection (707/1000, 707/1000) = (1, 1) ∧
    isCardinalUnit (pushDirection (707/1000, 707/1000)) = false := by
  with_unfolding_all decide

/-- The disjunction of the three rejection conditions of `Box.try_push`,
checked against the full box collection it is given (which, at every call
site, contains the pushed box itself). -/
def pushBlocked (self : Box) (direction : ℚ × ℚ) (level : Level)
    (boxes : List Box) : Bool :=
  level.is_wall (self.pushTarget direction) || self.sliding ||
  boxes.any (fun b => decide (b.grid_pos = self.pushTarget direction))

/-- C3 (amended): `try_push` fails, returning the box unchanged (same logical
cell, visual target and sliding flag), exactly when the target cell is a wall,
or the box is mid-slide, or some box of the given collection — including the
pushed box itself — occupies the target; otherwise it succeeds, moving the
logical cell immediately and starting the slide toward the target tile's
pixel position. -/
theorem try_push_characterization (self : Box) (direction : ℚ × ℚ)
    (level : Level) (boxes : List Box) :
    (pushBlocked self direction level boxes = true →
      self.try_push direction level boxes = (self, false)) ∧
    (pushBlocked self direction level boxes = false →
      self.try_push direction level boxes =
        ({ self with grid_pos := self.pushTarget direction,
                     target_pixel_pos :=
                       (((TILE_SIZE * (self.pushTarget direction).x : ℤ) : ℚ),
                        ((TILE_SIZE * (self.pushTarget direction).y : ℤ) : ℚ)),
                     sliding := true }, true)) := by
  cases hw : level.is_wall (self.pushTarget direction) <;>
    cases hs : self.sliding <;>
      cases ha : boxes.any (fun b => decide (b.grid_pos = self.pushTarget direction)) <;>
        simp [Box.try_push, pushBlocked, hw, hs, ha]

/-- A level whose only wall is the cell `(1, 0)`, for the push-rejection
witness. -/
def wallLevel : Level := { emptyLevel with walls := [⟨1, 0⟩] }

/-- Witness for C3: a push into a free cell succeeds and updates the box;
a push into a wall is rejected and leaves the box unchanged. -/
theorem try_push_characterization_witness :
    Box.try_push (Box.init ⟨0, 0⟩) (1, 0) emptyLevel [Box.init ⟨0, 0⟩] =
      ({ Box.init ⟨0, 0⟩ with grid_pos := ⟨1, 0⟩, target_pixel_pos := (80, 0),
                              sliding := true }, true) ∧
    Box.try_push (Box.init ⟨0, 0⟩) (1, 0) wallLevel [Box.init ⟨0, 0⟩] =
      (Box.init ⟨0, 0⟩, false) := by
  constructor
  · have h := (try_push_characterization (Box.init ⟨0, 0⟩) (1, 0) emptyLevel
      [Box.init ⟨0, 0⟩]).2 (by with_unfolding_all decide)
    rw [h]
    with_unfolding_all decide
  · exact (try_push_characterization (Box.init ⟨0, 0⟩) (1, 0) wallLevel
      [Box.init ⟨0, 0⟩]).1 (by with_unfolding_all decide)

/-- Counterexample for C3 as stated: with the zero direction and the collection
`[self]`, none of the claim's three failure conditions holds — the target is
not a wall, the box is not sliding, and no *other* box occupies the target
(there are no other boxes) — yet `try_push` returns `False`, because the
occupancy check also compares the pushed box against itself. -/
theorem try_push_other_box_reading_fails :
    Box.try_push (Box.init ⟨0, 0⟩) (0, 0) emptyLevel [Box.init ⟨0, 0⟩] =
      (Box.init ⟨0, 0⟩, false) ∧
    emptyLevel.is_wall ((Box.init ⟨0, 0⟩).pushTarget (0, 0)) = false ∧
    (Box.init ⟨0, 0⟩).sliding = false ∧
    ([Box.init ⟨0, 0⟩].filter (fun b => decide (b ≠ Box.init ⟨0, 0⟩))) = [] := by
  with_unfolding_all decide

lemma parseCell_player_eq (lv : Level) (pos : GridPos) (ch : Char)
    (h1 : ch ≠ '@') (h2 : ch ≠ '+') : (parseCell lv pos ch).player = lv.player := by
  unfold parseCell
  split_ifs <;> simp_all

lemma parseCells_player_eq (cs : List Char) :
    ∀ (lv : Level) (y x : ℤ), (∀ c ∈ cs, c ≠ '@' ∧ c ≠ '+') →
      (parseCells y lv x cs).player = lv.player := by
  induction cs with
  | nil => intro lv y x h; rfl
  | cons c cs ih =>
    intro lv y x h
    have hc := h c (List.mem_cons_self c cs)
    rw [parseCells, ih _ _ _ (fun d hd => h d (List.mem_cons_of_mem c hd))]
    exact parseCell_player_eq lv ⟨x, y⟩ c hc.1 hc.2

lemma mem_of_mem_gridPart {c : Char} {row : List Char} (h : c ∈ gridPart row) :
    c ∈ row :=
  List.takeWhile_subset _ h

lemma parseRows_player_eq (rs : List (List Char)) :
    ∀ (lv : Level) (y : ℤ), (∀ r ∈ rs, ∀ c ∈ r, c ≠ '@' ∧ c ≠ '+') →
      (parseRows lv y rs).player = lv.player := by
  induction rs with
  | nil => intro lv y h; rfl
  | cons r rs ih =>
    intro lv y h
    rw [parseRows, ih _ _ (fun r2 hr2 => h r2 (List.mem_cons_of_mem r hr2))]
    exact parseCells_player_eq (gridPart r) lv y 0
      (fun c hc => h r (List.mem_cons_self r rs) c (mem_of_mem_gridPart hc))

/-- C1 (amended): for every level string none of whose rows contains a player
character, parsing succeeds normally and produces a `Level` whose `player`
field is `None`; the hard failure happens only afterwards, when
`Game.restart_level` dereferences the missing player start
(`self.level.player.to_world()` raises `AttributeError` on `None`) — no
`MissingPlayerError` is ever raised, and no such class exists in the code. -/
theorem no_player_parses_to_none (s : String)
    (h : ∀ r ∈ levelRows s, ∀ c ∈ r, c ≠ '@' ∧ c ≠ '+') :
    (Level.init s).player = none ∧ Game.restart_level s = none := by
  have hp : (Level.init s).player = none := by
    unfold Level.init
    rw [parseRows_player_eq _ _ _ h]
    rfl
  refine ⟨hp, ?_⟩
  unfold Game.restart_level
  rw [hp]

/-- Witness for C1 at the player-less level string `"###"`. -/
theorem no_player_parses_to_none_witness :
    (Level.init ("###")).player = none ∧ Game.restart_level ("###") = none :=
  no_player_parses_to_none ("###") (by decide)

/-- Counterexample for C1 as stated: parsing the player-less level `"#.#"`
does not fail at all — `Level.__init__` returns normally with the walls and
the goal populated and `player = None` (there is no `MissingPlayerError`
anywhere in the program); only the later `Game.restart_level` call fails, and
with an `AttributeError`. -/
theorem parse_no_player_returns_level :
    (Level.init ("#.#")).walls = [⟨0, 0⟩, ⟨2, 0⟩] ∧
    (Level.init ("#.#")).goals = [⟨1, 0⟩] ∧
    (Level.init ("#.#")).player = none ∧
    Game.restart_level ("#.#") = none := by
  decide

@[simp] lemma velPlayer_position (p : PlayerS) (v : ℚ × ℚ) :
    (velPlayer p v).position = p.position := by
  unfold velPlayer
  split <;> rfl

@[simp] lemma velPlayer_abilities (p : PlayerS) (v : ℚ × ℚ) :
    (velPlayer p v).abilities = p.abilities := by
  unfold velPlayer
  split <;> rfl

@[simp] lemma velPlayer_current_ability (p : PlayerS) (v : ℚ × ℚ) :
    (velPlayer p v).current_ability = p.current_ability := by
  unfold velPlayer
  split <;> rfl

@[simp] lemma velPlayer_shatters (p : PlayerS) (v : ℚ × ℚ) :
    (velPlayer p v).shatters = p.shatters := by
  unfold velPlayer
  split <;> rfl

lemma tickVelocity_zero : tickVelocity (0 : ℚ × ℚ) = (0 : ℚ × ℚ) := by
  unfold tickVelocity lengthSq
  norm_num

lemma newPosition_zero (w : World) : newPosition w 0 (0 : ℚ × ℚ) = w.player.position := by
  unfold newPosition
  rw [tickVelocity_zero]
  simp

lemma futureRect_zero (w : World) : futureRect w 0 (0 : ℚ × ℚ) = currentRect w := by
  unfold futureRect currentRect
  rw [newPosition_zero]

lemma pushTarget_zero (b : Box) : b.pushTarget (0 : ℚ × ℚ) = b.grid_pos := by
  unfold Box.pushTarget pyTrunc
  norm_num

lemma try_push_zero_self (b : Box) (level : Level) (boxes : List Box)
    (hm : b ∈ boxes) : b.try_push (0 : ℚ × ℚ) level boxes = (b, false) := by
  have hany : boxes.any (fun b2 => decide (b2.grid_pos = b.pushTarget (0 : ℚ × ℚ))) = true :=
    List.any_eq_true.mpr ⟨b, hm, by rw [pushTarget_zero]; simp⟩
  unfold Box.try_push
  by_cases h1 : level.is_wall (b.pushTarget (0 : ℚ × ℚ)) = true
  · simp [h1]
  · by_cases h2 : b.sliding = true
    · simp [h1, h2]
    · simp [h1, h2, hany]

lemma boxLoop_no_hit (level : Level) (c : ℤ × ℤ) (dir : ℚ × ℚ) (ab : Power)
    (todo : List Box) :
    ∀ done : List Box, (∀ b ∈ todo, (tileRect b.grid_pos).collidepoint c = false) →
      boxLoop level c dir ab done todo = ⟨done ++ todo, [], false⟩ := by
  induction todo with
  | nil => intro done h; simp [boxLoop]
  | cons b rest ih =>
    intro done h
    rw [boxLoop]
    rw [h b (List.mem_cons_self b rest)]
    simp only [Bool.false_eq_true, if_false]
    rw [ih (done ++ [b]) (fun b2 h2 => h b2 (List.mem_cons_of_mem b h2))]
    simp

lemma boxLoop_nonpush_abort (level : Level) (c : ℤ × ℤ) (dir : ℚ × ℚ) (ab : Power)
    (hb : ab ≠ Power.BREAK) (hp : ab ≠ Power.PUSH) (todo : List Box) :
    ∀ done : List Box, (∃ b ∈ todo, (tileRect b.grid_pos).collidepoint c = true) →
      boxLoop level c dir ab done todo = ⟨done ++ todo, [], true⟩ := by
  induction todo with
  | nil => intro done h; simp at h
  | cons b rest ih =>
    intro done h
    rw [boxLoop]
    by_cases hcb : (tileRect b.grid_pos).collidepoint c = true
    · simp [hcb, hb, hp]
    · rw [Bool.not_eq_true] at hcb
      rw [hcb]
      simp only [Bool.false_eq_true, if_false]
      have hex : ∃ b2 ∈ rest, (tileRect b2.grid_pos).collidepoint c = true := by
        rcases h with ⟨b2, hb2, hcb2⟩
        rcases List.mem_cons.mp hb2 with rfl | hmem
        · rw [hcb2] at hcb; cases hcb
        · exact ⟨b2, hmem, hcb2⟩
      rw [ih (done ++ [b]) hex]
      simp

lemma boxLoop_push_zero (level : Level) (c : ℤ × ℤ) (todo : List Box) :
    ∀ done : List Box, (∃ b ∈ todo, (tileRect b.grid_pos).collidepoint c = true) →
      boxLoop level c (0 : ℚ × ℚ) Power.PUSH done todo = ⟨done ++ todo, [], true⟩ := by
  induction todo with
  | nil => intro done h; simp at h
  | cons b rest ih =>
    intro done h
    rw [boxLoop]
    by_cases hcb : (tileRect b.grid_pos).collidepoint c = true
    · have hfail : b.try_push (0 : ℚ × ℚ) level (done ++ b :: rest) = (b, false) :=
        try_push_zero_self b level _ (List.mem_append_right done (List.mem_cons_self b rest))
      simp [hcb, hfail]
    · rw [Bool.not_eq_true] at hcb
      rw [hcb]
      simp only [Bool.false_eq_true, if_false]
      have hex : ∃ b2 ∈ rest, (tileRect b2.grid_pos).collidepoint c = true := by
        rcases h with ⟨b2, hb2, hcb2⟩
        rcases List.mem_cons.mp hb2 with rfl | hmem
        · rw [hcb2] at hcb; cases hcb
        · exact ⟨b2, hmem, hcb2⟩
      rw [ih (done ++ [b]) hex]
      simp

lemma boxLoop_break (level : Level) (c : ℤ × ℤ) (dir : ℚ × ℚ) (b : Box)
    (hcb : (tileRect b.grid_pos).collidepoint c = true) (todo : List Box) :
    ∀ done : List Box,
      (∀ b2 ∈ todo, (tileRect b2.grid_pos).collidepoint c = true → b2 = b) →
      todo.count b = 1 →
      boxLoop level c dir Power.BREAK done todo =
        ⟨done ++ todo.erase b, [b.grid_pos], true⟩ := by
  induction todo with
  | nil => intro done hu hc; simp at hc
  | cons t rest ih =>
    intro done hu hc
    rw [boxLoop]
    by_cases ht : t = b
    · subst ht
      simp [hcb, List.erase_cons_head]
    · have htb : (t == b) = false := beq_eq_false_iff_ne.mpr ht
      have hct : (tileRect t.grid_pos).collidepoint c = false := by
        by_contra hx
        rw [Bool.not_eq_false] at hx
        exact ht (hu t (List.mem_cons_self t rest) hx)
      have hc2 : rest.count b = 1 := by
        rw [List.count_cons, htb] at hc
        simpa using hc
      rw [hct]
      simp only [Bool.false_eq_true, if_false]
      rw [ih (done ++ [t]) (fun b2 h2 hx => hu b2 (List.mem_cons_of_mem t h2) hx) hc2]
      rw [List.erase_cons_tail (fun hx => ht (by simpa using hx))]
      simp

lemma maskLoop_no_hit (fr : RectI) (ms : List Mask) :
    ∀ (ab : Finset Power) (cur : Power), (∀ m ∈ ms, fr.colliderect m.rect = false) →
      maskLoop fr ms ab cur = ⟨ms, ab, cur⟩ := by
  induction ms with
  | nil => intro ab cur h; rfl
  | cons m rest ih =>
    intro ab cur h
    rw [maskLoop]
    rw [h m (List.mem_cons_self m rest)]
    simp only [Bool.false_eq_true, if_false]
    rw [ih ab cur (fun m2 h2 => h m2 (List.mem_cons_of_mem m h2))]

lemma maskLoop_masks (fr : RectI) (ms : List Mask) :
    ∀ (ab : Finset Power) (cur : Power),
      (maskLoop fr ms ab cur).masks = ms.filter (fun m => !(fr.colliderect m.rect)) := by
  induction ms with
  | nil => intro ab cur; rfl
  | cons m rest ih =>
    intro ab cur
    rw [maskLoop, List.filter_cons]
    by_cases hm : fr.colliderect m.rect = true
    · rw [hm]
      simp only [if_true, Bool.not_true, Bool.false_eq_true, if_false]
      exact ih (insert m.power ab) m.power
    · rw [Bool.not_eq_true] at hm
      rw [hm]
      simp only [Bool.false_eq_true, if_false, Bool.not_false, if_true]
      rw [ih ab cur]
  
lemma maskLoop_abilities (fr : RectI) (ms : List Mask) :
    ∀ (ab : Finset Power) (cur : Power),
      (maskLoop fr ms ab cur).abilities =
        (ms.filter (fun m => fr.colliderect m.rect)).foldl
          (fun a m => insert m.power a) ab := by
  induction ms with
  | nil => intro ab cur; rfl
  | cons m rest ih =>
    intro ab cur
    rw [maskLoop, List.filter_cons]
    by_cases hm : fr.colliderect m.rect = true
    · rw [hm]
      simp only [if_true, List.foldl_cons]
      exact ih (insert m.power ab) m.power
    · rw [Bool.not_eq_true] at hm
      rw [hm]
      simp only [Bool.false_eq_true, if_false]
      exact ih ab cur

lemma maskLoop_current (fr : RectI) (ms : List Mask) :
    ∀ (ab : Finset Power) (cur : Power),
      (maskLoop fr ms ab cur).current =
        ((ms.filter (fun m => fr.colliderect m.rect)).map Mask.power).getLastD cur := by
  induction ms with
  | nil => intro ab cur; rfl
  | cons m rest ih =>
    intro ab cur
    rw [maskLoop, List.filter_cons]
    by_cases hm : fr.colliderect m.rect = true
    · rw [hm]
      simp only [if_true, List.map_cons, List.getLastD_cons]
      exact ih (insert m.power ab) m.power
    · rw [Bool.not_eq_true] at hm
      rw [hm]
      simp only [Bool.false_eq_true, if_false]
      exact ih ab cur

lemma mem_foldl_insert (l : List Mask) :
    ∀ (ab : Finset Power) (q : Power),
      q ∈ l.foldl (fun a m => insert m.power a) ab ↔ q ∈ ab ∨ ∃ m ∈ l, m.power = q := by
  induction l with
  | nil => intro ab q; simp
  | cons m rest ih =>
    intro ab q
    rw [List.foldl_cons, ih]
    simp only [Finset.mem_insert, List.mem_cons]
    constructor
    · rintro (⟨h | h⟩ | ⟨m2, h2, h3⟩)
      · exact Or.inr ⟨m, Or.inl rfl, h.symm⟩
      · exact Or.inl h
      · exact Or.inr ⟨m2, Or.inr h2, h3⟩
    · rintro (h | ⟨m2, h2 | h2, h3⟩)
      · exact Or.inl (Or.inr h)
      · subst h2
        exact Or.inl (Or.inl h3.symm)
      · exact Or.inr ⟨m2, h2, h3⟩

lemma update_wall (w : World) (dt : ℚ) (input_dir : ℚ × ℚ)
    (hw : hitsWall w.level (futureRect w dt input_dir) = true) :
    Player.update w dt input_dir = { w with player := velPlayer w.player input_dir } := by
  unfold Player.update
  simp [hw]

lemma update_abort (w : World) (dt : ℚ) (input_dir : ℚ × ℚ)
    (hw : hitsWall w.level (futureRect w dt input_dir) = false)
    (hb : (boxPhase w dt input_dir).aborted = true) :
    Player.update w dt input_dir =
      { w with boxes := (boxPhase w dt input_dir).boxes,
               player := { velPlayer w.player input_dir with
                           shatters := w.player.shatters ++ (boxPhase w dt input_dir).shatter } } := by
  unfold Player.update
  simp [hw, hb]

lemma update_commit (w : World) (dt : ℚ) (input_dir : ℚ × ℚ)
    (hw : hitsWall w.level (futureRect w dt input_dir) = false)
    (hb : (boxPhase w dt input_dir).aborted = false) :
    Player.update w dt input_dir =
      { w with
        level := { w.level with
                   masks := (maskLoop (futureRect w dt input_dir) w.level.masks
                              w.player.abilities w.player.current_ability).masks },
        boxes := (boxPhase w dt input_dir).boxes,
        player := { velPlayer w.player input_dir with
                    shatters := w.player.shatters ++ (boxPhase w dt input_dir).shatter,
                    abilities := (maskLoop (futureRect w dt input_dir) w.level.masks
                                   w.player.abilities w.player.current_ability).abilities,
                    current_ability := (maskLoop (futureRect w dt input_dir) w.level.masks
                                         w.player.abilities w.player.current_ability).current,
                    position := newPosition w dt input_dir } } := by
  unfold Player.update
  simp [hw, hb]

/-- C10: `try_push` with the zero direction always fails against any collection
containing the pushed box itself (the occupancy check compares the target —
the box's own cell — against every box in the collection, itself included),
and consequently a resolver tick whose rounded input direction is zero, with
PUSH equipped and a box containing the tentative center, aborts the player's
movement. -/
theorem zero_direction_push_rejected :
    (∀ (bx : Box) (level : Level) (boxes : List Box), bx ∈ boxes →
      bx.try_push (0, 0) level boxes = (bx, false)) ∧
    (∀ (w : World) (dt : ℚ) (input_dir : ℚ × ℚ),
      pushDirection input_dir = (0, 0) →
      w.player.current_ability = Power.PUSH →
      hitsWall w.level (futureRect w dt input_dir) = false →
      (∃ b ∈ w.boxes,
        (tileRect b.grid_pos).collidepoint (futureRect w dt input_dir).center = true) →
      (Player.update w dt input_dir).player.position = w.player.position ∧
      (Player.update w dt input_dir).boxes = w.boxes) := by
  constructor
  · intro bx level boxes hm
    exact try_push_zero_self bx level boxes hm
  · intro w dt input_dir hdir hab hw hex
    have hbp : boxPhase w dt input_dir = ⟨w.boxes, [], true⟩ := by
      unfold boxPhase
      rw [hab]
      rw [if_neg (by decide : ¬ (Power.PUSH = Power.IGNORE))]
      have hcast : (((pushDirection input_dir).1 : ℚ), ((pushDirection input_dir).2 : ℚ)) =
          (0 : ℚ × ℚ) := by
        rw [hdir]
        norm_num
      rw [hcast, boxLoop_push_zero w.level _ w.boxes [] hex]
      simp
    have hb : (boxPhase w dt input_dir).aborted = true := by rw [hbp]
    rw [update_abort w dt input_dir hw hb]
    exact ⟨by simp, by simp [hbp]⟩

/-- A world with PUSH equipped and the player's rect center inside the box at
cell `(1, 1)`, for the C10 witness. -/
def pushWitnessWorld : World :=
  ⟨emptyLevel, [Box.init ⟨1, 1⟩],
   ⟨(108, 108), (0, 0), {Power.NONE, Power.PUSH}, Power.PUSH, none, []⟩⟩

/-- Witness for C10: both conjuncts at a concrete box, level and world. -/
theorem zero_direction_push_rejected_witness :
    Box.try_push (Box.init ⟨0, 0⟩) (0, 0) demoLevel [Box.init ⟨0, 0⟩] =
      (Box.init ⟨0, 0⟩, false) ∧
    (Player.update pushWitnessWorld 0 (0, 0)).player.position =
      pushWitnessWorld.player.position := by
  constructor
  · exact zero_direction_push_rejected.1 (Box.init ⟨0, 0⟩) demoLevel [Box.init ⟨0, 0⟩]
      (List.mem_cons_self _ _)
  · exact (zero_direction_push_rejected.2 pushWitnessWorld 0 (0, 0)
      (by with_unfolding_all decide) (by with_unfolding_all decide)
      (by with_unfolding_all decide) (by with_unfolding_all decide)).1

/-- C4: with BREAK equipped, on a tick that passes the wall check and whose
tentative rect center lies in the (unique) colliding box's tile, that box is
removed from the collection in that same tick, a shatter animation is started
at its former cell, the player does not move, and a second tick with the same
input removes no further box. -/
theorem break_removes_box_once (w : World) (dt : ℚ) (input_dir : ℚ × ℚ) (b : Box)
    (hab : w.player.current_ability = Power.BREAK)
    (hw : hitsWall w.level (futureRect w dt input_dir) = false)
    (hcb : (tileRect b.grid_pos).collidepoint (futureRect w dt input_dir).center = true)
    (hu : ∀ b2 ∈ w.boxes,
      (tileRect b2.grid_pos).collidepoint (futureRect w dt input_dir).center = true → b2 = b)
    (hc : w.boxes.count b = 1) :
    (Player.update w dt input_dir).boxes = w.boxes.erase b ∧
    (Player.update w dt input_dir).player.shatters = w.player.shatters ++ [b.grid_pos] ∧
    (Player.update w dt input_dir).player.position = w.player.position ∧
    (Player.update (Player.update w dt input_dir) dt input_dir).boxes =
      (Player.update w dt input_dir).boxes := by
  have hbp : boxPhase w dt input_dir = ⟨w.boxes.erase b, [b.grid_pos], true⟩ := by
    unfold boxPhase
    rw [hab]
    rw [if_neg (by decide : ¬ (Power.BREAK = Power.IGNORE))]
    rw [boxLoop_break w.level _ _ b hcb w.boxes [] hu hc]
    simp
  have hbt : (boxPhase w dt input_dir).aborted = true := by rw [hbp]
  have h1 : (Player.update w dt input_dir).boxes = w.boxes.erase b := by
    rw [update_abort w dt input_dir hw hbt, hbp]
  have h2 : (Player.update w dt input_dir).player.shatters =
      w.player.shatters ++ [b.grid_pos] := by
    rw [update_abort w dt input_dir hw hbt, hbp]
  have h3 : (Player.update w dt input_dir).player.position = w.player.position := by
    rw [update_abort w dt input_dir hw hbt]
    simp
  refine ⟨h1, h2, h3, ?_⟩
  set w1 := Player.update w dt input_dir with hw1
  have hlev : w1.level = w.level := by
    rw [hw1, update_abort w dt input_dir hw hbt]
  have habil : w1.player.current_ability = Power.BREAK := by
    rw [hw1, update_abort w dt input_dir hw hbt]
    simp [hab]
  have hfr : futureRect w1 dt input_dir = futureRect w dt input_dir := by
    unfold futureRect newPosition
    rw [h3]
  have hwall2 : hitsWall w1.level (futureRect w1 dt input_dir) = false := by
    rw [hfr, hlev]
    exact hw
  have hnotmem : b ∉ w.boxes.erase b := by
    have hcnt := List.count_erase_self b w.boxes
    rw [hc] at hcnt
    exact List.count_eq_zero.mp hcnt
  have hnocol : ∀ b2 ∈ w1.boxes,
      (tileRect b2.grid_pos).collidepoint (futureRect w1 dt input_dir).center = false := by
    intro b2 hb2
    rw [hfr]
    by_contra hx
    rw [Bool.not_eq_false] at hx
    rw [hw1, h1] at hb2
    have hbb : b2 = b := hu b2 (List.mem_of_mem_erase hb2) hx
    exact hnotmem (hbb ▸ hb2)
  have hbp1 : boxPhase w1 dt input_dir = ⟨w1.boxes, [], false⟩ := by
    unfold boxPhase
    rw [habil]
    rw [if_neg (by decide : ¬ (Power.BREAK = Power.IGNORE))]
    rw [boxLoop_no_hit w1.level _ _ _ w1.boxes [] hnocol]
    simp
  have hbf : (boxPhase w1 dt input_dir).aborted = false := by rw [hbp1]
  rw [update_commit w1 dt input_dir hwall2 hbf, hbp1]

/-- A world with BREAK equipped and the player's rect center inside the box at
cell `(1, 1)`, for the C4 witness. -/
def breakWitnessWorld : World :=
  ⟨emptyLevel, [Box.init ⟨1, 1⟩],
   ⟨(108, 108), (0, 0), {Power.NONE, Power.BREAK}, Power.BREAK, none, []⟩⟩

/-- Witness for C4 at a concrete world with zero input and `dt = 0`. -/
theorem break_removes_box_once_witness :
    (Player.update breakWitnessWorld 0 (0, 0)).boxes =
      breakWitnessWorld.boxes.erase (Box.init ⟨1, 1⟩) ∧
    (Player.update breakWitnessWorld 0 (0, 0)).player.shatters =
      breakWitnessWorld.player.shatters ++ [(Box.init ⟨1, 1⟩).grid_pos] ∧
    (Player.update breakWitnessWorld 0 (0, 0)).player.position =
      breakWitnessWorld.player.position ∧
    (Player.update (Player.update breakWitnessWorld 0 (0, 0)) 0 (0, 0)).boxes =
      (Player.update breakWitnessWorld 0 (0, 0)).boxes :=
  break_removes_box_once breakWitnessWorld 0 (0, 0) (Box.init ⟨1, 1⟩)
    (by with_unfolding_all decide) (by with_unfolding_all decide)
    (by with_unfolding_all decide) (by with_unfolding_all decide)
    (by with_unfolding_all decide)

/-- C5: on a tick that passes the wall check and whose box phase does not
abort, every mask whose rect intersects the tentative player rect is collected
— removed (exactly those masks are filtered out of the level's mask set), its
power added to `abilities`, and `current_ability` auto-equipped — with the
last-iterated colliding mask determining the final `current_ability`. -/
theorem mask_pickup_collects_all (w : World) (dt : ℚ) (input_dir : ℚ × ℚ)
    (hw : hitsWall w.level (futureRect w dt input_dir) = false)
    (hb : (boxPhase w dt input_dir).aborted = false) :
    (Player.update w dt input_dir).level.masks =
      w.level.masks.filter (fun m => !((futureRect w dt input_dir).colliderect m.rect)) ∧
    (∀ q : Power, q ∈ (Player.update w dt input_dir).player.abilities ↔
      q ∈ w.player.abilities ∨
        ∃ m ∈ w.level.masks,
          (futureRect w dt input_dir).colliderect m.rect = true ∧ m.power = q) ∧
    (Player.update w dt input_dir).player.current_ability =
      ((w.level.masks.filter
          (fun m => (futureRect w dt input_dir).colliderect m.rect)).map
        Mask.power).getLastD w.player.current_ability := by
  rw [update_commit w dt input_dir hw hb]
  refine ⟨by simp [maskLoop_masks], ?_, by simp [maskLoop_current]⟩
  intro q
  dsimp only
  rw [maskLoop_abilities, mem_foldl_insert]
  constructor
  · rintro (h | ⟨m, hm, hp⟩)
    · exact Or.inl h
    · rcases List.mem_filter.mp hm with ⟨hm1, hm2⟩
      exact Or.inr ⟨m, hm1, hm2, hp⟩
  · rintro (h | ⟨m, hm, hcol, hp⟩)
    · exact Or.inl h
    · exact Or.inr ⟨m, List.mem_filter.mpr ⟨hm, hcol⟩, hp⟩

/-- A world whose player rect overlaps two mask pickups placed at cell
`(1, 1)`, for the C5 witness. -/
def maskWitnessWorld : World :=
  ⟨{ emptyLevel with masks := [⟨⟨1, 1⟩, Power.PUSH⟩, ⟨⟨1, 1⟩, Power.BREAK⟩] }, [],
   ⟨(100, 100), (0, 0), {Power.NONE}, Power.NONE, none, []⟩⟩

/-- Witness for C5: both overlapping masks are collected in one tick; the
last-iterated one (the BREAK mask) determines the equipped ability. -/
theorem mask_pickup_collects_all_witness :
    (Player.update maskWitnessWorld 0 (0, 0)).level.masks = [] ∧
    (Player.update maskWitnessWorld 0 (0, 0)).player.current_ability = Power.BREAK ∧
    Power.PUSH ∈ (Player.update maskWitnessWorld 0 (0, 0)).player.abilities := by
  have h := mask_pickup_collects_all maskWitnessWorld 0 (0, 0)
    (by with_unfolding_all decide) (by with_unfolding_all decide)
  refine ⟨?_, ?_, ?_⟩
  · rw [h.1]
    with_unfolding_all decide
  · rw [h.2.2]
    with_unfolding_all decide
  · exact (h.2.1 Power.PUSH).mpr
      (Or.inr ⟨⟨⟨1, 1⟩, Power.PUSH⟩, by with_unfolding_all decide,
        by with_unfolding_all decide, rfl⟩)

lemma tickZero_commit_step (w : World)
    (hw : hitsWall w.level (futureRect w 0 0) = false)
    (hm : ∀ m ∈ w.level.masks, (currentRect w).colliderect m.rect = false)
    (hbp : boxPhase w 0 0 = ⟨w.boxes, [], false⟩) :
    (tickZero w).player.position = w.player.position ∧
    (tickZero w).boxes = w.boxes ∧
    (tickZero w).level = w.level ∧
    (tickZero w).player.current_ability = w.player.current_ability := by
  have hmask : maskLoop (futureRect w 0 0) w.level.masks
      w.player.abilities w.player.current_ability =
      ⟨w.level.masks, w.player.abilities, w.player.current_ability⟩ := by
    rw [futureRect_zero]
    exact maskLoop_no_hit (currentRect w) w.level.masks _ _ hm
  have hbf : (boxPhase w 0 0).aborted = false := by rw [hbp]
  unfold tickZero
  rw [update_commit w 0 0 hw hbf]
  refine ⟨by simp [newPosition_zero], by simp [hbp], by simp [hmask], by simp [hmask]⟩

lemma tickZero_step (w : World)
    (hm : ∀ m ∈ w.level.masks, (currentRect w).colliderect m.rect = false)
    (hb : w.player.current_ability = Power.BREAK →
      ∀ b ∈ w.boxes, (tileRect b.grid_pos).collidepoint (currentRect w).center = false) :
    (tickZero w).player.position = w.player.position ∧
    (tickZero w).boxes = w.boxes ∧
    (tickZero w).level = w.level ∧
    (tickZero w).player.current_ability = w.player.current_ability := by
  by_cases hw : hitsWall w.level (futureRect w 0 0) = true
  · unfold tickZero
    rw [update_wall w 0 0 hw]
    exact ⟨by simp, rfl, rfl, by simp⟩
  · rw [Bool.not_eq_true] at hw
    by_cases hig : w.player.current_ability = Power.IGNORE
    · exact tickZero_commit_step w hw hm (by unfold boxPhase; rw [if_pos hig])
    · by_cases hbr : w.player.current_ability = Power.BREAK
      · refine tickZero_commit_step w hw hm ?_
        unfold boxPhase
        rw [if_neg hig]
        rw [boxLoop_no_hit w.level _ _ _ w.boxes [] (by
          intro b2 h2
          rw [futureRect_zero]
          exact hb hbr b2 h2)]
        simp
      · by_cases hcol : ∃ b ∈ w.boxes,
            (tileRect b.grid_pos).collidepoint (futureRect w 0 0).center = true
        · have hbp : boxPhase w 0 0 = ⟨w.boxes, [], true⟩ := by
            unfold boxPhase
            rw [if_neg hig]
            by_cases hpu : w.player.current_ability = Power.PUSH
            · rw [hpu]
              have hcast : (((pushDirection (0 : ℚ × ℚ)).1 : ℚ),
                  ((pushDirection (0 : ℚ × ℚ)).2 : ℚ)) = (0 : ℚ × ℚ) := by
                norm_num [pushDirection, pyRound]
              rw [hcast, boxLoop_push_zero w.level _ w.boxes [] hcol]
              simp
            · rw [boxLoop_nonpush_abort w.level _ _ _ hbr hpu w.boxes [] hcol]
              simp
          have hbt : (boxPhase w 0 0).aborted = true := by rw [hbp]
          unfold tickZero
          rw [update_abort w 0 0 hw hbt]
          exact ⟨by simp, by simp [hbp], rfl, by simp⟩
        · refine tickZero_commit_step w hw hm ?_
          unfold boxPhase
          rw [if_neg hig]
          rw [boxLoop_no_hit w.level _ _ _ w.boxes [] (by
            intro b2 h2
            by_contra hx
            rw [Bool.not_eq_false] at hx
            exact hcol ⟨b2, h2, hx⟩)]
          simp

/-- C7 (amended): a resolver tick with `dt = 0` and zero input, iterated any
number of times, never changes the player's position, the box collection, or
the level's mask set — provided no uncollected mask overlaps the player's
rect, and the current ability is not BREAK while a box's tile contains the
player's rect center.  (Without the BREAK proviso the claim is false: see the
counterexample theorem, where a zero tick removes a box.) -/
theorem zero_tick_preserves_state (w : World)
    (hm : ∀ m ∈ w.level.masks, (currentRect w).colliderect m.rect = false)
    (hb : w.player.current_ability = Power.BREAK →
      ∀ b ∈ w.boxes, (tileRect b.grid_pos).collidepoint (currentRect w).center = false) :
    ∀ n : ℕ,
      (tickZero^[n] w).player.position = w.player.position ∧
      (tickZero^[n] w).boxes = w.boxes ∧
      (tickZero^[n] w).level.masks = w.level.masks := by
  have main : ∀ n : ℕ,
      (tickZero^[n] w).player.position = w.player.position ∧
      (tickZero^[n] w).boxes = w.boxes ∧
      (tickZero^[n] w).level = w.level ∧
      (tickZero^[n] w).player.current_ability = w.player.current_ability := by
    intro n
    induction n with
    | zero => exact ⟨rfl, rfl, rfl, rfl⟩
    | succ n ih =>
      rcases ih with ⟨hp, hbx, hlv, hcur⟩
      have hcr : currentRect (tickZero^[n] w) = currentRect w := by
        unfold currentRect
        rw [hp]
      have hm2 : ∀ m ∈ (tickZero^[n] w).level.masks,
          (currentRect (tickZero^[n] w)).colliderect m.rect = false := by
        intro m hmem
        rw [hcr]
        exact hm m (by rwa [hlv] at hmem)
      have hb2 : (tickZero^[n] w).player.current_ability = Power.BREAK →
          ∀ b ∈ (tickZero^[n] w).boxes,
            (tileRect b.grid_pos).collidepoint (currentRect (tickZero^[n] w)).center = false := by
        intro hbrk b hbm
        rw [hcr]
        exact hb (by rwa [hcur] at hbrk) b (by rwa [hbx] at hbm)
      have hstep := tickZero_step (tickZero^[n] w) hm2 hb2
      rw [Function.iterate_succ_apply']
      exact ⟨hstep.1.trans hp, hstep.2.1.trans hbx, hstep.2.2.1.trans hlv,
        hstep.2.2.2.trans hcur⟩
  intro n
  exact ⟨(main n).1, (main n).2.1, by rw [(main n).2.2.1]⟩

/-- A world in free space (no walls, boxes or masks near the player), for the
C7 witness. -/
def idleWorld : World :=
  ⟨emptyLevel, [], ⟨(40, 40), (0, 0), {Power.NONE}, Power.NONE, none, []⟩⟩

/-- Witness for C7 after three iterated zero ticks. -/
theorem zero_tick_preserves_state_witness :
    (tickZero^[3] idleWorld).player.position = idleWorld.player.position ∧
    (tickZero^[3] idleWorld).boxes = idleWorld.boxes ∧
    (tickZero^[3] idleWorld).level.masks = idleWorld.level.masks :=
  zero_tick_preserves_state idleWorld
    (by intro m hm; simp [idleWorld, emptyLevel] at hm)
    (by intro _ b hb; simp [idleWorld] at hb) 3

/-- A world with BREAK equipped and the player standing inside the crystal at
cell `(1, 1)` (reachable by walking into the crystal with IGNORE and then
cycling to BREAK), for the C7 counterexample. -/
def breakIdleWorld : World :=
  ⟨emptyLevel, [Box.init ⟨1, 1⟩],
   ⟨(108, 108), (0, 0), {Power.NONE, Power.BREAK, Power.IGNORE}, Power.BREAK, none, []⟩⟩

/-- Counterexample for C7 as stated: a single tick with `dt = 0` and zero
input removes the overlapped box when BREAK is equipped — the box collection
shrinks from one box to none, so the zero tick is not a no-op. -/
theorem zero_tick_break_removes_box :
    (tickZero breakIdleWorld).boxes = [] ∧
    breakIdleWorld.boxes = [Box.init ⟨1, 1⟩] := by
  constructor
  · with_unfolding_all decide
  · rfl
